import Mathlib

/-!
Shallow embedding of the MTK flash-tool host client (main.py, chip_mapping.py).

Bytes are modelled as natural numbers; the hex strings accumulated by the
Python code (two hex characters per byte) are modelled as lists of byte
values, since the byte-to-hex encoding is injective.  Serial transports are
modelled explicitly: the command/response primitive sees a `Port` (echo byte
plus the buffer contents at each poll tick), the handshake sees a script of
per-write response bursts, and the auth/qualify exchanges consume a flat
list of input bytes.  Blocking forever (a read that can never be satisfied)
is modelled as `none`.
-/

namespace MtkFlash

/-! ## CommandResponseProtocol: `read_resp` (main.py lines 112-126) -/

/-- A transport as seen by `read_resp`: the byte read back after writing the
command, and the buffered bytes (`s.in_waiting` worth) at each sleep tick. -/
structure Port where
  echo : Nat
  avail : Nat → List Nat

/-- The poll loop of `read_resp`: at tick `t` check the buffer; if empty,
sleep one tick; when the retry budget `rem` (the `ctr == 15` bound) is
exhausted, break and read whatever is buffered after the final sleep.
Returns the bytes read together with the tick at which they were read. -/
def pollLoop (avail : Nat → List Nat) : Nat → Nat → List Nat × Nat
  | t, 0 => if avail t = [] then (avail (t + 1), t + 1) else (avail t, t)
  | t, rem + 1 => if avail t = [] then pollLoop avail (t + 1) rem else (avail t, t)

/-- `read_resp`: write the command byte, read one byte back; on echo mismatch
fall through (Python returns `None`, modelled as `none`).  On echo match,
sleep the initial settle tick and run the poll loop with `ctr` bound 15. -/
def read_resp (cmd : Nat) (p : Port) : Option (List Nat × Nat) :=
  if p.echo = cmd then some (pollLoop p.avail 1 15) else none

/-! ## HandshakeProtocol: `try_handshake` (main.py lines 66-98) -/

/-- The four magic bytes `a0 0a 50 05` written by the handshake. -/
def magicBytes : List Nat := [0xa0, 0x0a, 0x50, 0x05]

/-- The expected reply magic `5f f5 af fa`. -/
def handshakeMagic : List Nat := [0x5f, 0xf5, 0xaf, 0xfa]

/-- The ASCII bytes of the Preloader greeting `"READY"`. -/
def readyBytes : List Nat := [0x52, 0x45, 0x41, 0x44, 0x59]

/-- One pass of the inner `for cmd_byte in cmd_bytes` loop.  `script` holds,
for each magic byte written, the burst of bytes the device has made
available (the blocking 1-byte read plus the `in_waiting` drain); an empty
burst means the `while not s.in_waiting` spin never ends, modelled `none`.
Returns the remaining script, the accumulated response, the `is_preloader`
flag, the `retry` flag, and the list of magic bytes actually written. -/
def hsPass : List Nat → List (List Nat) → List Nat → Bool → Bool →
    Option (List (List Nat) × List Nat × Bool × Bool × List Nat)
  | [], script, rdata, pre, retry => some (script, rdata, pre, retry, [])
  | b :: bs, script, rdata, pre, retry =>
    match script with
    | [] => none
    | resp :: rest =>
      if resp = [] then none
      else
        let rdata' := rdata ++ resp
        if rdata' = readyBytes then some (rest, rdata', true, retry, [b])
        else
          match hsPass bs rest rdata' pre false with
          | none => none
          | some (s', r', p', t', ws) => some (s', r', p', t', b :: ws)

/-- The outer `while retry` loop, with fuel bounding the number of passes
(the Python loop can rerun forever against an adversarial device).  Each
pass resets the accumulator to empty.  Returns the final accumulated
response, the `is_preloader` flag and all magic bytes written. -/
def hsLoop : Nat → List (List Nat) → Bool → Option (List Nat × Bool × List Nat)
  | 0, _, _ => none
  | fuel + 1, script, pre =>
    match hsPass magicBytes script [] pre true with
    | none => none
    | some (script', rdata', pre', retry', ws) =>
      if retry' then
        match hsLoop fuel script' pre' with
        | none => none
        | some (r, p, ws2) => some (r, p, ws ++ ws2)
      else some (rdata', pre', ws)

/-- The three outcomes of `try_handshake`: success (`return True`, with the
connection mode), the non-fatal already-handshaked warning, and the hard
failure that calls `sys.exit(0)`. -/
inductive HandshakeOutcome where
  | established (preloader : Bool)
  | alreadyDone
  | failed
deriving Repr, DecidableEq

/-- `try_handshake`: run the send/accumulate loop, then classify the final
accumulated response against the reply magic, the sent bytes, and anything
else.  Also returns the sequence of magic bytes written. -/
def try_handshake (fuel : Nat) (script : List (List Nat)) :
    Option (HandshakeOutcome × List Nat) :=
  match hsLoop fuel script false with
  | none => none
  | some (rdata, pre, ws) =>
    if rdata = handshakeMagic then some (.established pre, ws)
    else if rdata = magicBytes then some (.alreadyDone, ws)
    else some (.failed, ws)

/-! ## ChipIdentifier: `bstr_to_int`, `chip_map`, `get_chip_id`
(main.py lines 129-152, chip_mapping.py) -/

/-- `int.from_bytes(..., "big")` over a list of byte values. -/
def bstr_to_int (bstr : List Nat) : Nat :=
  bstr.foldl (fun a b => a * 256 + b) 0

/-- A `chip_map` entry: the static fields from chip_mapping.py plus the
three fields `get_chip_id` adds at runtime (absent before identification,
hence `Option`). -/
structure ChipEntry where
  id : Nat
  name : String
  hw_code : Nat
  da_load_addr : Nat
  da_sig_len : Nat
  hw_sub_code : Option Nat := none
  hw_version : Option Nat := none
  sw_version : Option Nat := none
deriving Repr, DecidableEq

/-- The single entry of the static table (chip_mapping.py). -/
def mt6765 : ChipEntry :=
  { id := 0x766, name := "MT6765", hw_code := 0x6765,
    da_load_addr := 0x200000, da_sig_len := 0x100 }

/-- The static lookup table `chip_map`, keyed on the upper 16 bits of the
hardware-code word. -/
def chip_map : Nat → Option ChipEntry :=
  fun k => if k = 0x766 then some mt6765 else none

/-- Failures of chip identification: a `KeyError` on the table lookup
(the unknown-chip case) and the `TypeError` raised by
`''.join(None)` when `read_resp` returned `None` after an echo mismatch. -/
inductive IdError where
  | unknownChip (hw : Nat)
  | typeError
deriving Repr, DecidableEq

/-- `get_chip_id` given the two decoded response byte lists and the current
table state.  Python mutates the looked-up dict in place (the returned
`chip_config` aliases the table entry), modelled by returning both the
completed entry and the updated table. -/
def get_chip_id (hwResp subResp : List Nat) (m : Nat → Option ChipEntry) :
    Except IdError (ChipEntry × (Nat → Option ChipEntry)) :=
  let hw := bstr_to_int hwResp
  let sub := bstr_to_int subResp
  match m (hw >>> 16) with
  | none => .error (.unknownChip (hw >>> 16))
  | some e =>
    let e' := { e with hw_sub_code := some ((sub >>> 32) >>> 16),
                       hw_version := some ((sub >>> 32) &&& 0xFFFF),
                       sw_version := some (sub &&& 0xFFFFFFFF) }
    .ok (e', fun k => if k = hw >>> 16 then some e' else m k)

/-- `get_chip_id` as called in a session: both `read_resp` queries run
before the table lookup; a `None` from either (echo mismatch) makes
`bstr_to_int` raise `TypeError`. -/
def identify_via_port (p1 p2 : Port) (m : Nat → Option ChipEntry) :
    Except IdError (ChipEntry × (Nat → Option ChipEntry)) :=
  match read_resp 0xfd p1 with
  | none => .error .typeError
  | some (r1, _) =>
    match read_resp 0xfc p2 with
    | none => .error .typeError
    | some (r2, _) => get_chip_id r1 r2 m

/-- Observe the table returned by `get_chip_id` at one key (function-valued
results are not decidably comparable, their pointwise values are). -/
def okEntryAt (r : Except IdError (ChipEntry × (Nat → Option ChipEntry)))
    (k : Nat) : Option (Option ChipEntry) :=
  match r with
  | .ok p => some (p.2 k)
  | .error _ => none

/-! ## AuthAndQualifyProtocol: `send_auth_file`, `qualify_host`
(main.py lines 159-201) -/

/-- `read_serial(s, n)`: consume exactly `n` bytes from the device input;
if the device will never supply them the read blocks forever (`none`). -/
def readN (n : Nat) (input : List Nat) : Option (List Nat × List Nat) :=
  if input.length < n then none else some (input.take n, input.drop n)

/-- Whether an exchange ran to the end of its function body (including the
silent fall-through returns) or called `sys.exit(0)`. -/
inductive ExchangeOutcome where
  | completed
  | aborted
deriving Repr, DecidableEq

/-- `send_auth_file`: command `e2`, length frame `000008d0`, two drained
status reads around the raw auth-blob write, then a final 2-byte status
that must equal `0000`; every mismatch prints and calls `sys.exit(0)`. -/
def send_auth_file (input : List Nat) : Option ExchangeOutcome :=
  match readN 1 input with
  | none => none
  | some (echo, r1) =>
    if echo = [0xe2] then
      match readN 4 r1 with
      | none => none
      | some (lenEcho, r2) =>
        if lenEcho = [0x00, 0x00, 0x08, 0xd0] then
          match readN 2 r2 with
          | none => none
          | some (_, r3) =>
            match readN 2 r3 with
            | none => none
            | some (_, r4) =>
              match readN 2 r4 with
              | none => none
              | some (status, _) =>
                if status = [0x00, 0x00] then some .completed
                else some .aborted
        else some .aborted
    else some .aborted

/-- `qualify_host`: skipped entirely under `SKIP_SLA`; otherwise command
`e3`, drain 2 and 4 bytes, read the 16-byte IP block, send `00000100`,
and on ack echo send the IP 16 times and drain twice.  Both `if` mismatch
branches have no `else`: the function silently returns. -/
def qualify_host (skip : Bool) (input : List Nat) : Option ExchangeOutcome :=
  if skip then some .completed
  else
    match readN 1 input with
    | none => none
    | some (echo, r1) =>
      if echo = [0xe3] then
        match readN 2 r1 with
        | none => none
        | some (_, r2) =>
          match readN 4 r2 with
          | none => none
          | some (_, r3) =>
            match readN 16 r3 with
            | none => none
            | some (_, r4) =>
              match readN 4 r4 with
              | none => none
              | some (ack, r5) =>
                if ack = [0x00, 0x00, 0x01, 0x00] then
                  match readN 2 r5 with
                  | none => none
                  | some (_, r6) =>
                    match readN 2 r6 with
                    | none => none
                    | some (_, _) => some .completed
                else some .completed
      else some .completed

/-! ## DAImageParser: `load_da` (main.py lines 204-221) -/

/-- `unpack("<I", f.read(4))`: little-endian 32-bit word at `pos`; `none`
when fewer than 4 bytes remain (Python would raise `struct.error`). -/
def readLe32 (buf : List Nat) (pos : Nat) : Option Nat :=
  match buf[pos]?, buf[pos + 1]?, buf[pos + 2]?, buf[pos + 3]? with
  | some b0, some b1, some b2, some b3 =>
    some (b0 + 256 * (b1 + 256 * (b2 + 256 * b3)))
  | _, _, _, _ => none

/-- The record loop of `load_da`: for each of `n` records read the leading
little-endian word at the cursor, keep `word >>> 16`, and advance the
cursor by the fixed 220-byte record stride (4 read + `seek(tell+220-4)`).
Returns the hardware codes in order and the final cursor. -/
def parseRecords (buf : List Nat) : Nat → Nat → Option (List Nat × Nat)
  | 0, c => some ([], c)
  | n + 1, c =>
    match readLe32 buf c with
    | none => none
    | some w =>
      match parseRecords buf n (c + 220) with
      | none => none
      | some (codes, cEnd) => some ((w >>> 16) :: codes, cEnd)

/-- The header-parsing effect of `load_da`: seek to `0x68`, read the
little-endian record count, then run the record loop. -/
def load_da (buf : List Nat) : Option (List Nat × Nat) :=
  match readLe32 buf 0x68 with
  | none => none
  | some n => parseRecords buf n (0x68 + 4)

/-- The value of the Python call `load_da()`: the function body ends without
a `return` statement, so it returns `None` whatever the file contents. -/
def load_da_ret (_ : List Nat) : Option (List Nat) := none

/-! ## DATransferProtocol: `send_da` (main.py lines 224-247) -/

/-- The chunk loop of `send_da` applied to an image body `ba`:
`for i in range(int(len(ba) / 8192)): write_serial_raw(ba[i*8192:(i+1)*8192])`. -/
def send_da_chunks (ba : List Nat) : List (List Nat) :=
  (List.range (ba.length / 8192)).map (fun i => (ba.drop (i * 8192)).take 8192)

/-- The body-transfer step of `send_da`: `ba = load_da()` followed by the
chunk loop.  Since `load_da()` is `None`, `int(len(ba) / 8192)` raises
`TypeError` before any chunk write, modelled as `none`. -/
def send_da_transfer (buf : List Nat) : Option (List (List Nat)) :=
  match load_da_ret buf with
  | none => none
  | some ba => some (send_da_chunks ba)

/-! ## Concrete transports and scripts used by witnesses -/

/-- A port that echoes `0xfd` and has `[1, 2]` buffered from tick 3 on. -/
def dataPort : Port := ⟨0xfd, fun t => if 3 ≤ t then [1, 2] else []⟩

/-- A port whose echo byte `0xfe` matches no command, with an empty buffer. -/
def mismatchPort : Port := ⟨0xfe, fun _ => []⟩

/-- A BootROM device: one reply-magic byte per written magic byte. -/
def bootScript : List (List Nat) := [[0x5f], [0xf5], [0xaf], [0xfa]]

/-- A Preloader device: the full `"READY"` greeting arrives after the first
magic byte, then the reply magic one byte per write. -/
def readyScript : List (List Nat) := readyBytes :: bootScript

/-! ## Helper lemmas -/

theorem pollLoop_reads_buffer (avail : Nat → List Nat) :
    ∀ rem t, (pollLoop avail t rem).1 = avail (pollLoop avail t rem).2 ∧
      (pollLoop avail t rem).2 ≤ t + rem + 1 := by
  intro rem
  induction rem with
  | zero =>
    intro t
    by_cases h : avail t = [] <;> simp [pollLoop, h]
  | succ rem ih =>
    intro t
    by_cases h : avail t = []
    · have h2 := ih (t + 1)
      simp only [pollLoop, if_pos h]
      exact ⟨h2.1, by omega⟩
    · simp only [pollLoop, if_neg h]
      exact ⟨trivial, by omega⟩

/-! ## Claim theorems -/

/-- C4: against a transport that echoes the command and never buffers data,
`read_resp` runs its bounded poll (initial settle sleep, then the `ctr`
bound of 15, giving 17 sleep ticks in all) and returns the valid empty
response `some []`, not a failure; and whenever it does return a response,
those are exactly the bytes buffered on the transport at the tick of the
final read, reached within the bound. -/
theorem c4_read_resp_poll :
    (∀ cmd, read_resp cmd ⟨cmd, fun _ => []⟩ = some ([], 17)) ∧
    (∀ cmd p bs t, read_resp cmd p = some (bs, t) → bs = p.avail t ∧ t ≤ 17) := by
  constructor
  · intro cmd
    rw [read_resp, if_pos rfl]
    rfl
  · intro cmd p bs t h
    rw [read_resp] at h
    by_cases he : p.echo = cmd
    · rw [if_pos he] at h
      have h2 := Option.some.inj h
      have hs := pollLoop_reads_buffer p.avail 15 1
      rw [h2] at hs
      exact ⟨hs.1, by have := hs.2; omega⟩
    · rw [if_neg he] at h
      exact absurd h (by simp)

theorem c4_read_resp_poll_witness :
    read_resp 0xfd dataPort = some ([1, 2], 3) ∧
      ([1, 2] = dataPort.avail 3 ∧ 3 ≤ 17) :=
  ⟨by decide, c4_read_resp_poll.2 0xfd dataPort [1, 2] 3 (by decide)⟩

/-- C7: when the echo byte read back does not equal the command,
`read_resp` falls through and yields the mismatch outcome `none`, which is
distinct from the valid empty response `some ([], t)` of a timed-out poll. -/
theorem c7_echo_mismatch :
    (∀ cmd p, p.echo ≠ cmd → read_resp cmd p = none) ∧
    (∀ t : Nat, (none : Option (List Nat × Nat)) ≠ some ([], t)) := by
  constructor
  · intro cmd p h
    rw [read_resp, if_neg h]
  · intro t h
    exact Option.noConfusion h

theorem c7_echo_mismatch_witness :
    read_resp 0xfd mismatchPort = none ∧
      (none : Option (List Nat × Nat)) ≠ some ([], 17) :=
  ⟨c7_echo_mismatch.1 0xfd mismatchPort (by decide), c7_echo_mismatch.2 17⟩

/-- C2: whatever device script the send/accumulate loop ran against, the
final accumulated response is classified exactly three ways: the reply
magic `5f f5 af fa` gives success with the mode determined by the
Preloader-greeting flag, an echo of the sent bytes `a0 0a 50 05` gives the
non-fatal already-handshaked warning, and anything else is the hard
failure that aborts the session. -/
theorem c2_handshake_classification :
    ∀ fuel script rdata pre ws,
      hsLoop fuel script false = some (rdata, pre, ws) →
      (rdata = handshakeMagic →
        try_handshake fuel script = some (.established pre, ws)) ∧
      (rdata ≠ handshakeMagic → rdata = magicBytes →
        try_handshake fuel script = some (.alreadyDone, ws)) ∧
      (rdata ≠ handshakeMagic → rdata ≠ magicBytes →
        try_handshake fuel script = some (.failed, ws)) := by
  intro fuel script rdata pre ws h
  refine ⟨fun h1 => ?_, fun h1 h2 => ?_, fun h1 h2 => ?_⟩
  · simp [try_handshake, h, h1]
  · simp [try_handshake, h, h1, h2,
      show ¬magicBytes = handshakeMagic by decide]
  · simp [try_handshake, h, h1, h2]

theorem c2_handshake_classification_witness :
    try_handshake 1 bootScript = some (.established false, magicBytes) :=
  (c2_handshake_classification 1 bootScript handshakeMagic false magicBytes
    (by decide)).1 rfl

/-- C6 counterexample: a device that sends the `"READY"` greeting after the
first magic byte and then replies with the magic.  The code restarts the
whole 4-byte send (the first magic byte `a0` is written twice, 5 writes in
all), whereas the claim says only the remaining not-yet-sent bytes are
written, which would make the write sequence exactly `magicBytes`. -/
theorem c6_interleaved_counterexample :
    try_handshake 2 readyScript =
        some (.established true, [0xa0, 0xa0, 0x0a, 0x50, 0x05]) ∧
      [0xa0, 0xa0, 0x0a, 0x50, 0x05] ≠ magicBytes := by
  decide

/-- C6 amended: when the accumulated response after the first magic byte of
a pass equals the ASCII bytes of `"READY"`, the protocol records Preloader
mode and restarts the entire 4-byte magic send with a cleared accumulator;
the recorded mode persists across the restart and the first magic byte is
written again in front of the writes of the rerun. -/
theorem c6_interleaved_restart :
    ∀ fuel rest,
      hsLoop (fuel + 1) (readyBytes :: rest) false =
        match hsLoop fuel rest true with
        | none => none
        | some (r, p, ws) => some (r, p, 0xa0 :: ws) := by
  intro fuel rest
  cases h : hsLoop fuel rest true with
  | none => simp [hsLoop, hsPass, magicBytes, readyBytes, h]
  | some v =>
    obtain ⟨r, p, ws⟩ := v
    simp [hsLoop, hsPass, magicBytes, readyBytes, h]

/-! ## Concrete chip-query data and DA image used by witnesses -/

/-- First-query response decoding big-endian to `0x07660000`. -/
def hwResp766 : List Nat := [0x07, 0x66, 0x00, 0x00]

/-- Second-query response whose derived fields are `(1, 2, 3)`. -/
def subResp123 : List Nat := [0x00, 0x01, 0x00, 0x02, 0x00, 0x00, 0x00, 0x03]

/-- Second-query response whose derived fields are `(4, 5, 6)`. -/
def subResp456 : List Nat := [0x00, 0x04, 0x00, 0x05, 0x00, 0x00, 0x00, 0x06]

/-- The MT6765 entry completed with derived fields `(1, 2, 3)`. -/
def e123 : ChipEntry :=
  { mt6765 with hw_sub_code := some 1, hw_version := some 2, sw_version := some 3 }

/-- The MT6765 entry completed with derived fields `(4, 5, 6)`. -/
def e456 : ChipEntry :=
  { mt6765 with hw_sub_code := some 4, hw_version := some 5, sw_version := some 6 }

/-- The table state after a first successful identification. -/
def chipMapAfterFirst : Nat → Option ChipEntry := fun k =>
  match get_chip_id hwResp766 subResp123 chip_map with
  | .ok p => p.2 k
  | .error _ => none

/-- A port that echoes the first chip query and never buffers a response. -/
def fdTimeoutPort : Port := ⟨0xfd, fun _ => []⟩

/-- A port that echoes the second chip query and never buffers a response. -/
def fcPort : Port := ⟨0xfc, fun _ => []⟩

/-- A DA image: zeros up to offset `0x68`, count 3, then three 220-byte
records whose leading little-endian words are `0x67650000`, `0x67610000`,
`0x67680000`. -/
def daBuf : List Nat :=
  List.replicate 104 0 ++ [3, 0, 0, 0] ++
    ([0, 0, 0x65, 0x67] ++ List.replicate 216 0) ++
    ([0, 0, 0x61, 0x67] ++ List.replicate 216 0) ++
    ([0, 0, 0x68, 0x67] ++ List.replicate 216 0)

/-! ## More helper lemmas -/

theorem readN_some (n : Nat) (input bs rest : List Nat)
    (h : readN n input = some (bs, rest)) :
    bs = input.take n ∧ rest = input.drop n := by
  rw [readN] at h
  by_cases hl : input.length < n
  · rw [if_pos hl] at h
    exact Option.noConfusion h
  · rw [if_neg hl] at h
    have h2 := Prod.mk.injEq .. |>.mp (Option.some.inj h)
    exact ⟨h2.1.symm, h2.2.symm⟩

theorem readLe32_isSome (buf : List Nat) (pos : Nat) (h : pos + 4 ≤ buf.length) :
    ∃ w, readLe32 buf pos = some w := by
  rw [readLe32, List.getElem?_eq_getElem (show pos < buf.length by omega),
    List.getElem?_eq_getElem (show pos + 1 < buf.length by omega),
    List.getElem?_eq_getElem (show pos + 2 < buf.length by omega),
    List.getElem?_eq_getElem (show pos + 3 < buf.length by omega)]
  exact ⟨_, rfl⟩

theorem parseRecords_complete (buf : List Nat) :
    ∀ n c, c + n * 220 ≤ buf.length →
      ∃ codes, parseRecords buf n c = some (codes, c + n * 220) ∧
        codes.length = n ∧
        ∀ i, i < n → codes[i]? = (readLe32 buf (c + i * 220)).map (· >>> 16) := by
  intro n
  induction n with
  | zero =>
    intro c _
    exact ⟨[], by simp [parseRecords], rfl, fun i hi => absurd hi (by omega)⟩
  | succ n ih =>
    intro c hc
    obtain ⟨w, hw⟩ := readLe32_isSome buf c (by omega)
    obtain ⟨codes, hp, hlen, hget⟩ := ih (c + 220) (by omega)
    refine ⟨(w >>> 16) :: codes, ?_, by simp [hlen], ?_⟩
    · simp only [parseRecords, hw, hp]
      have harith : c + 220 + n * 220 = c + (n + 1) * 220 := by ring
      rw [harith]
    · intro i hi
      cases i with
      | zero => simp [hw]
      | succ i =>
        have hstep := hget i (by omega)
        simpa [show c + 220 + i * 220 = c + (i + 1) * 220 by ring] using hstep

theorem send_da_chunk_length (ba : List Nat) (i : Nat)
    (h : i < ba.length / 8192) :
    ((ba.drop (i * 8192)).take 8192).length = 8192 := by
  rw [List.length_take, List.length_drop]
  omega

theorem send_da_chunks_join_aux (ba : List Nat) :
    ∀ k, ((List.range k).map (fun i => (ba.drop (i * 8192)).take 8192)).flatten
      = ba.take (k * 8192) := by
  intro k
  induction k with
  | zero => simp
  | succ k ih =>
    rw [List.range_succ, List.map_append, List.flatten_append, ih]
    simp only [List.map_cons, List.map_nil, List.flatten_cons, List.flatten_nil,
      List.append_nil]
    rw [Nat.succ_mul, List.take_add]

/-! ## Claim theorems, continued -/

/-- C1: the chunk loop of `send_da`, applied to an image body, performs
exactly `len / 8192` writes of 8192 bytes each, the i-th being the slice at
offset `i * 8192`, and their concatenation is the image truncated at the
last whole chunk (the trailing partial chunk is never transmitted).  But
the transfer step as written never reaches the loop: `load_da()` returns
`None`, so `int(len(ba) / 8192)` raises `TypeError` and no chunk is sent. -/
theorem c1_da_chunking :
    (∀ buf, send_da_transfer buf = none) ∧
    (∀ ba : List Nat, (send_da_chunks ba).length = ba.length / 8192) ∧
    (∀ ba : List Nat, ∀ i, i < ba.length / 8192 →
      (send_da_chunks ba)[i]? = some ((ba.drop (i * 8192)).take 8192) ∧
      ((ba.drop (i * 8192)).take 8192).length = 8192) ∧
    (∀ ba : List Nat,
      (send_da_chunks ba).flatten = ba.take (ba.length / 8192 * 8192)) := by
  refine ⟨fun buf => rfl, fun ba => by simp [send_da_chunks],
    fun ba i hi => ⟨?_, send_da_chunk_length ba i hi⟩, fun ba => ?_⟩
  · simp [send_da_chunks, List.getElem?_range hi]
  · simp only [send_da_chunks]
    exact send_da_chunks_join_aux ba (ba.length / 8192)

theorem c1_da_chunking_witness :
    send_da_transfer (List.replicate 16385 0) = none ∧
      ((send_da_chunks (List.replicate 16385 0))[1]? =
          some (((List.replicate 16385 (0 : Nat)).drop 8192).take 8192) ∧
        (((List.replicate 16385 (0 : Nat)).drop 8192).take 8192).length = 8192) :=
  ⟨c1_da_chunking.1 _,
   c1_da_chunking.2.2.1 _ 1 (by simp only [List.length_replicate]; decide)⟩

/-- C3: a first query decoding to `0x07660000` and a second query whose
derived fields are `(1, 2, 3)` identify the MT6765 descriptor, completed
with those fields; a hardware code absent from the table is a `KeyError`,
the unknown-chip failure. -/
theorem c3_identify :
    (∀ hwResp subResp, bstr_to_int hwResp = 0x07660000 →
      (bstr_to_int subResp >>> 32) >>> 16 = 1 →
      (bstr_to_int subResp >>> 32) &&& 0xFFFF = 2 →
      bstr_to_int subResp &&& 0xFFFFFFFF = 3 →
      ∃ e m', get_chip_id hwResp subResp chip_map = .ok (e, m') ∧
        e.name = "MT6765" ∧ e.hw_code = 0x6765 ∧ e.hw_sub_code = some 1 ∧
        e.hw_version = some 2 ∧ e.sw_version = some 3) ∧
    (∀ hwResp subResp, chip_map (bstr_to_int hwResp >>> 16) = none →
      get_chip_id hwResp subResp chip_map =
        .error (.unknownChip (bstr_to_int hwResp >>> 16))) := by
  constructor
  · intro hwResp subResp h1 h2 h3 h4
    have hmap : chip_map (bstr_to_int hwResp >>> 16) = some mt6765 := by
      rw [h1]
      rfl
    simp only [get_chip_id, hmap]
    exact ⟨_, _, rfl, rfl, rfl, by rw [h2], by rw [h3], by rw [h4]⟩
  · intro hwResp subResp h
    simp only [get_chip_id, h]

theorem c3_identify_witness :
    (∃ e m', get_chip_id hwResp766 subResp123 chip_map = .ok (e, m') ∧
      e.name = "MT6765" ∧ e.hw_code = 0x6765 ∧ e.hw_sub_code = some 1 ∧
      e.hw_version = some 2 ∧ e.sw_version = some 3) ∧
    get_chip_id [0x00] subResp123 chip_map =
      .error (.unknownChip (bstr_to_int [0x00] >>> 16)) :=
  ⟨c3_identify.1 hwResp766 subResp123 (by decide) (by decide) (by decide)
    (by decide),
   c3_identify.2 [0x00] subResp123 (by decide)⟩

/-- C5 counterexample: one concrete identification run rewrites the static
table entry for `0x766` from its startup value to the completed descriptor,
and a second run with different responses overwrites that previously
completed descriptor (the Python `chip_config` aliases the table entry). -/
theorem c5_immutability_counterexample :
    okEntryAt (get_chip_id hwResp766 subResp123 chip_map) 0x766 =
        some (some e123) ∧
      chip_map 0x766 = some mt6765 ∧ e123 ≠ mt6765 ∧
      okEntryAt (get_chip_id hwResp766 subResp456 chipMapAfterFirst) 0x766 =
        some (some e456) ∧
      e456 ≠ e123 := by
  decide

/-- C5 amended: every successful `get_chip_id` writes this run's derived
`hw_sub_code`/`hw_version`/`sw_version` into the shared table entry for the
looked-up hardware code (the returned descriptor is that entry), leaving
other keys unchanged; descriptors are therefore not write-once and the
table is mutated by identification itself. -/
theorem c5_identify_mutates_table :
    ∀ hwResp subResp m e, m (bstr_to_int hwResp >>> 16) = some e →
      ∃ e' m', get_chip_id hwResp subResp m = .ok (e', m') ∧
        m' (bstr_to_int hwResp >>> 16) = some e' ∧
        e'.hw_sub_code = some ((bstr_to_int subResp >>> 32) >>> 16) ∧
        e'.hw_version = some ((bstr_to_int subResp >>> 32) &&& 0xFFFF) ∧
        e'.sw_version = some (bstr_to_int subResp &&& 0xFFFFFFFF) ∧
        ∀ k, k ≠ bstr_to_int hwResp >>> 16 → m' k = m k := by
  intro hwResp subResp m e h
  simp only [get_chip_id, h]
  exact ⟨_, _, rfl, by simp, rfl, rfl, rfl, fun k hk => by simp [hk]⟩

theorem c5_identify_mutates_table_witness :
    ∃ e' m', get_chip_id hwResp766 subResp456 chipMapAfterFirst = .ok (e', m') ∧
      m' (bstr_to_int hwResp766 >>> 16) = some e' ∧
      e'.hw_sub_code = some ((bstr_to_int subResp456 >>> 32) >>> 16) ∧
      e'.hw_version = some ((bstr_to_int subResp456 >>> 32) &&& 0xFFFF) ∧
      e'.sw_version = some (bstr_to_int subResp456 &&& 0xFFFFFFFF) ∧
      ∀ k, k ≠ bstr_to_int hwResp766 >>> 16 → m' k = chipMapAfterFirst k :=
  c5_identify_mutates_table hwResp766 subResp456 chipMapAfterFirst e123
    (by decide)

/-- C8: a well-formed header (count `n` at `0x68`, followed by `n` 220-byte
records) parses to exactly the `n` hardware codes obtained by little-endian
decoding the leading word of each record and shifting right by 16, in
order, and the cursor ends exactly `4 + n * 220` bytes past `0x68`. -/
theorem c8_load_da_parse :
    ∀ buf n, readLe32 buf 0x68 = some n → 0x68 + 4 + n * 220 ≤ buf.length →
      ∃ codes, load_da buf = some (codes, 0x68 + 4 + n * 220) ∧
        codes.length = n ∧
        ∀ i, i < n →
          codes[i]? = (readLe32 buf (0x68 + 4 + i * 220)).map (· >>> 16) := by
  intro buf n hn hlen
  obtain ⟨codes, hp, hl, hg⟩ := parseRecords_complete buf n (0x68 + 4) hlen
  exact ⟨codes, by simp [load_da, hn, hp], hl, hg⟩

set_option maxRecDepth 10000 in
theorem c8_load_da_parse_witness :
    (∃ codes, load_da daBuf = some (codes, 0x68 + 4 + 3 * 220) ∧
      codes.length = 3 ∧
      ∀ i, i < 3 →
        codes[i]? = (readLe32 daBuf (0x68 + 4 + i * 220)).map (· >>> 16)) ∧
    load_da daBuf = some ([0x6765, 0x6761, 0x6768], 768) :=
  ⟨c8_load_da_parse daBuf 3 (by decide) (by decide), by decide⟩

/-- C9 counterexample: an `e3` echo mismatch makes `qualify_host` fall
through its `if` (which has no `else`) and silently return; the session is
not aborted, contrary to the claim that both exchanges are strict. -/
theorem c9_strictness_counterexample :
    qualify_host false [0x00] = some .completed ∧
      ExchangeOutcome.completed ≠ ExchangeOutcome.aborted := by
  decide

/-- C9 amended: `send_auth_file` is strict (it can only run to completion
when the command echo, the length-frame echo and the final status frame all
match, every mismatch aborting via `sys.exit`), but `qualify_host` never
aborts: an echo or ack mismatch there silently returns. -/
theorem c9_auth_strict_qualify_silent :
    (∀ input, send_auth_file input = some .completed →
      input.take 1 = [0xe2] ∧
      (input.drop 1).take 4 = [0x00, 0x00, 0x08, 0xd0] ∧
      ((((input.drop 1).drop 4).drop 2).drop 2).take 2 = [0x00, 0x00]) ∧
    (∀ skip input, qualify_host skip input ≠ some .aborted) := by
  constructor
  · intro input h
    rw [send_auth_file] at h
    split at h
    · exact Option.noConfusion h
    next echo r1 heq1 =>
      split at h
      next hc1 =>
        split at h
        · exact Option.noConfusion h
        next lenEcho r2 heq2 =>
          split at h
          next hc2 =>
            split at h
            · exact Option.noConfusion h
            next d1 r3 heq3 =>
              split at h
              · exact Option.noConfusion h
              next d2 r4 heq4 =>
                split at h
                · exact Option.noConfusion h
                next status r5 heq5 =>
                  split at h
                  next hc5 =>
                    obtain ⟨he1, hd1⟩ := readN_some 1 input echo r1 heq1
                    obtain ⟨he2, hd2⟩ := readN_some 4 r1 lenEcho r2 heq2
                    obtain ⟨_, hd3⟩ := readN_some 2 r2 d1 r3 heq3
                    obtain ⟨_, hd4⟩ := readN_some 2 r3 d2 r4 heq4
                    obtain ⟨he5, _⟩ := readN_some 2 r4 status r5 heq5
                    refine ⟨?_, ?_, ?_⟩
                    · rw [← he1]
                      exact hc1
                    · rw [← hd1, ← he2]
                      exact hc2
                    · rw [← hd1, ← hd2, ← hd3, ← hd4, ← he5]
                      exact hc5
                  next hc5 => simp at h
          next hc2 => simp at h
      next hc1 => simp at h
  · intro skip input h
    rw [qualify_host] at h
    split at h
    · simp at h
    · split at h
      · exact Option.noConfusion h
      · split at h
        · split at h
          · exact Option.noConfusion h
          · split at h
            · exact Option.noConfusion h
            · split at h
              · exact Option.noConfusion h
              · split at h
                · exact Option.noConfusion h
                · split at h
                  · split at h
                    · exact Option.noConfusion h
                    · split at h
                      · exact Option.noConfusion h
                      · simp at h
                  · simp at h
        · simp at h

theorem c9_auth_strict_qualify_silent_witness :
    [0xe2, 0x00, 0x00, 0x08, 0xd0, 0xaa, 0xbb, 0xcc, 0xdd, 0x00,
        0x00].take 1 = [0xe2] ∧
      ([0xe2, 0x00, 0x00, 0x08, 0xd0, 0xaa, 0xbb, 0xcc, 0xdd, 0x00,
          0x00].drop 1).take 4 = [0x00, 0x00, 0x08, 0xd0] ∧
      (((([0xe2, 0x00, 0x00, 0x08, 0xd0, 0xaa, 0xbb, 0xcc, 0xdd, 0x00,
          0x00].drop 1).drop 4).drop 2).drop 2).take 2 = [0x00, 0x00] :=
  c9_auth_strict_qualify_silent.1
    [0xe2, 0x00, 0x00, 0x08, 0xd0, 0xaa, 0xbb, 0xcc, 0xdd, 0x00, 0x00]
    (by decide)

/-- C10: an empty response (echo matched, poll bound exhausted with no
data) decodes through `int.from_bytes` to 0, so identification looks up
hardware code `0 >>> 16 = 0` in the static table and fails with the
unknown-chip lookup error; no distinct timeout outcome is surfaced. -/
theorem c10_timeout_decodes_to_unknown_chip :
    bstr_to_int [] = 0 ∧
    ∀ p1 p2, p1.echo = 0xfd → (∀ t, p1.avail t = []) → p2.echo = 0xfc →
      identify_via_port p1 p2 chip_map = .error (.unknownChip 0) := by
  refine ⟨rfl, ?_⟩
  intro p1 p2 h1 h2 h3
  have hp : pollLoop p1.avail 1 15 = ([], 17) := by
    have ha : p1.avail = fun _ => [] := funext h2
    rw [ha]
    decide
  simp only [identify_via_port, read_resp, if_pos h1, if_pos h3, hp]
  simp [get_chip_id, bstr_to_int, chip_map]

theorem c10_timeout_witness :
    identify_via_port fdTimeoutPort fcPort chip_map =
      .error (.unknownChip 0) :=
  c10_timeout_decodes_to_unknown_chip.2 fdTimeoutPort fcPort rfl
    (fun _ => rfl) rfl

end MtkFlash
